import Mathlib

set_option autoImplicit false

namespace PulsarCrypto

/-! Shallow embedding of `DefaultMessageCrypto` from the pulsar crypto
package (src/unnamed/part_000).  Go byte slices are modelled as `List Nat`;
where the code conflates a nil slice with emptiness (the results of
`gcm.Open(nil, ...)` and the payload/ciphertext returns) `[]` models nil,
while the engine's `dataKey` field, whose nil-ness is tested explicitly,
is an `Option (List Nat)`.  The Go standard-library crypto primitives are
abstracted into a `CryptoPrims` record; two facts of the standard library
are fixed in the embedding: `aes.NewCipher` fails exactly on key lengths
other than 16, 24, 32, and `cipher.NewGCM` over AES always succeeds with
nonce size 12.  `sync.Map` and Go maps are modelled as association lists
with overwriting insertion. -/

/-- EncryptionKeyInfo: key bytes plus string-to-string metadata. -/
structure EncryptionKeyInfo where
  key : List Nat
  metadata : List (String × String)
deriving Repr, DecidableEq

/-- pb.EncryptionKeys: one envelope entry {keyName, wrapped bytes, metadata}. -/
structure EncryptionKeys where
  key : String
  value : List Nat
  metadata : List (String × String)
deriving Repr, DecidableEq

/-- pb.MessageMetadata, restricted to the two fields the engine touches:
the encryption-key list and the nonce (EncryptionParam). -/
structure MessageMetadata where
  encryptionKeys : List EncryptionKeys
  encryptionParam : List Nat
deriving Repr, DecidableEq

/-- The KeyReader collaborator: resolves a named key to EncryptionKeyInfo. -/
structure KeyReader where
  getPublicKey : String → List (String × String) → Except String EncryptionKeyInfo
  getPrivateKey : String → List (String × String) → Except String EncryptionKeyInfo

/-- The error values the engine can return, one constructor per distinct
Go error site (parse and cast failures of a public key are conflated into
`parseRSAPubKey`, likewise for private keys). -/
inductive GoErr where
  | rngErr
  | generatingNonce
  | emptyKeyNameOrKeyReader
  | parseRSAPubKey
  | parseRSAPriKey
  | wrapErr
  | aesKeySize
  | openErr
  | dataKeyDecryption
  | encryptedDataKeyNotFound (logCtx : String) (keyName : String)
  | readerErr (msg : String)
deriving Repr, DecidableEq

/-- Abstracted crypto primitives.  `newKeyBytes` and `nonceBytes` are the
outcomes of the two `rand.Read` call sites (`none` = RNG failure); the
buffers the Go code allocates have fixed lengths 32 and 12, which the
embedding enforces by padding/truncation at the call sites. -/
structure CryptoPrims where
  parsePubKey : List Nat → Option (List Nat)
  parsePriKey : List Nat → Option (List Nat)
  rsaWrap : List Nat → List Nat → Option (List Nat)
  rsaUnwrap : List Nat → List Nat → Option (List Nat)
  sealGCM : List Nat → List Nat → List Nat → List Nat
  openGCM : List Nat → List Nat → List Nat → Option (List Nat)
  md5Hex : List Nat → List Nat
  newKeyBytes : Option (List Nat)
  nonceBytes : Option (List Nat)

/-- Overwriting insertion into an association list (sync.Map Store / map assignment). -/
def storeAssoc {κ α : Type} [DecidableEq κ] : List (κ × α) → κ → α → List (κ × α)
  | [], k, v => [(k, v)]
  | (k', v') :: rest, k, v =>
    if k' = k then (k, v) :: rest else (k', v') :: storeAssoc rest k v

/-- Lookup in an association list (sync.Map Load / map read). -/
def loadAssoc {κ α : Type} [DecidableEq κ] : List (κ × α) → κ → Option α
  | [], _ => none
  | (k', v') :: rest, k => if k' = k then some v' else loadAssoc rest k

/-- Deletion from an association list (sync.Map Delete). -/
def deleteAssoc {κ α : Type} [DecidableEq κ] : List (κ × α) → κ → List (κ × α)
  | [], _ => []
  | (k', v') :: rest, k =>
    if k' = k then deleteAssoc rest k else (k', v') :: deleteAssoc rest k

/-- The engine state: DefaultMessageCrypto's mutable fields.  `dataKey` is
`none` exactly when the Go field is nil. -/
structure Engine where
  dataKey : Option (List Nat)
  loadingCache : List (List Nat × List Nat)
  encryptedDataKeyMap : List (String × EncryptionKeyInfo)
  logCtx : String
deriving Repr, DecidableEq

/-- generateDataKey: a 32-byte buffer filled from the secure RNG; the buffer
length is 32 regardless of the RNG outcome, and the RNG error is returned. -/
def generateDataKey (p : CryptoPrims) : Except GoErr (List Nat) :=
  match p.newKeyBytes with
  | none => .error .rngErr
  | some bs => .ok ((bs ++ List.replicate 32 0).take 32)

/-- NewDefaultMessageCrypto: fresh engine, optionally with a generated data
key; on RNG failure the (keyless) engine is returned together with the error. -/
def NewDefaultMessageCrypto (p : CryptoPrims) (logCtx : String) (keyGenNeeded : Bool) :
    Engine × Option GoErr :=
  let d : Engine :=
    { dataKey := none, loadingCache := [], encryptedDataKeyMap := [], logCtx := logCtx }
  if keyGenNeeded then
    match generateDataKey p with
    | .error e => (d, some e)
    | .ok key => ({ d with dataKey := some key }, none)
  else
    (d, none)

/-- addPublicKeyCipher (lower-case): wrap the current data key (a nil data
key wraps as the empty message, as rsa.EncryptOAEP accepts a nil msg) for
one recipient and store the wrapped entry; the engine is unchanged on every
failure path. -/
def addPublicKeyCipher (p : CryptoPrims) (d : Engine) (keyName : String)
    (keyReader : Option KeyReader) : Engine × Option GoErr :=
  match keyReader with
  | none => (d, some .emptyKeyNameOrKeyReader)
  | some kr =>
    if keyName = "" then (d, some .emptyKeyNameOrKeyReader)
    else
      match kr.getPublicKey keyName [] with
      | .error e => (d, some (.readerErr e))
      | .ok keyInfo =>
        match p.parsePubKey keyInfo.key with
        | none => (d, some .parseRSAPubKey)
        | some rsaPubKey =>
          match p.rsaWrap rsaPubKey (d.dataKey.getD []) with
          | none => (d, some .wrapErr)
          | some encryptedDataKey =>
            let entry : EncryptionKeyInfo :=
              { key := encryptedDataKey, metadata := keyInfo.metadata }
            let m := storeAssoc d.encryptedDataKeyMap keyName entry
            ({ d with encryptedDataKeyMap := m }, none)

/-- The per-name loop of AddPublicKeyCipher: stops at the first error,
keeping the mutations already performed. -/
def addPublicKeyCipherLoop (p : CryptoPrims) (kr : Option KeyReader) :
    Engine → List String → Engine × Option GoErr
  | d, [] => (d, none)
  | d, keyName :: rest =>
    match addPublicKeyCipher p d keyName kr with
    | (d', some e) => (d', some e)
    | (d', none) => addPublicKeyCipherLoop p kr d' rest

/-- AddPublicKeyCipher: rotate the data key, then wrap it for each name in
order; the first failure aborts the loop without rolling anything back. -/
def AddPublicKeyCipher (p : CryptoPrims) (d : Engine) (keyNames : List String)
    (keyReader : Option KeyReader) : Engine × Option GoErr :=
  match generateDataKey p with
  | .error e => (d, some e)
  | .ok key => addPublicKeyCipherLoop p keyReader { d with dataKey := some key } keyNames

/-- RemoveKeyCipher: delete the wrapped entry; false only for an empty name. -/
def RemoveKeyCipher (d : Engine) (keyName : String) : Engine × Bool :=
  if keyName = "" then (d, false)
  else ({ d with encryptedDataKeyMap := deleteAssoc d.encryptedDataKeyMap keyName }, true)

/-- aes.NewCipher succeeds exactly on key lengths 16, 24 and 32. -/
def aesValidKeyLen (n : Nat) : Bool := n == 16 || n == 24 || n == 32

/-- The name-to-position map Encrypt builds over the metadata's existing key
list; Go map assignment means a duplicated name keeps its last position. -/
def buildKeysMap (keys : List EncryptionKeys) : List (String × Nat) :=
  keys.enum.foldl (fun m ik => storeAssoc m ik.2.key ik.1) []

/-- Result of Encrypt: ciphertext (`[]` models the nil return on errors),
error, the caller's metadata as observable after the call, and the engine. -/
structure EncryptResult where
  ciphertext : List Nat
  err : Option GoErr
  meta : MessageMetadata
  engine : Engine
deriving Repr, DecidableEq

/-- The per-name loop of Encrypt: lazily wrap missing names (failures only
logged), then fail if the name is still absent, else merge the wrapped entry
into the key list — replacing at the recorded original position, appending
otherwise. -/
def encryptLoop (p : CryptoPrims) (kr : Option KeyReader) (kmap : List (String × Nat)) :
    Engine → List EncryptionKeys → List String →
    Engine × List EncryptionKeys × Option GoErr
  | d, keys, [] => (d, keys, none)
  | d, keys, keyName :: rest =>
    let d1 :=
      if (loadAssoc d.encryptedDataKeyMap keyName).isSome then d
      else (addPublicKeyCipher p d keyName kr).1
    match loadAssoc d1.encryptedDataKeyMap keyName with
    | none => (d1, keys, some (.encryptedDataKeyNotFound d1.logCtx keyName))
    | some keyInfo =>
      let newKey : EncryptionKeys :=
        { key := keyName, value := keyInfo.key,
          metadata := if keyInfo.metadata.length > 0 then keyInfo.metadata else [] }
      let keys' :=
        match loadAssoc kmap keyName with
        | some i => keys.set i newKey
        | none => keys ++ [newKey]
      encryptLoop p kr kmap d1 keys' rest

/-- Encrypt.  With zero names the payload passes through unchanged.  On the
in-loop error return the metadata's key list is the original-length prefix of
the working list: in-place replacements are visible through the caller's
slice elements even though the local slice was not assigned back.  After the
loop the key list is assigned, and only then the cipher is built and the
nonce drawn, so those two failures leave an already-updated key list behind. -/
def Encrypt (p : CryptoPrims) (d : Engine) (encKeys : List String)
    (keyReader : Option KeyReader) (msgMetadata : MessageMetadata)
    (payload : List Nat) : EncryptResult :=
  if encKeys.isEmpty then
    { ciphertext := payload, err := none, meta := msgMetadata, engine := d }
  else
    let kmap := buildKeysMap msgMetadata.encryptionKeys
    match encryptLoop p keyReader kmap d msgMetadata.encryptionKeys encKeys with
    | (d1, keys, some e) =>
      let mdErr :=
        { msgMetadata with encryptionKeys := keys.take msgMetadata.encryptionKeys.length }
      { ciphertext := [], err := some e, meta := mdErr, engine := d1 }
    | (d1, keys, none) =>
      let md1 := { msgMetadata with encryptionKeys := keys }
      let dataKey := d1.dataKey.getD []
      if aesValidKeyLen dataKey.length then
        match p.nonceBytes with
        | none =>
          { ciphertext := [], err := some .generatingNonce, meta := md1, engine := d1 }
        | some nb =>
          let nonce := (nb ++ List.replicate 12 0).take 12
          let md2 := { md1 with encryptionParam := nonce }
          { ciphertext := p.sealGCM dataKey nonce payload, err := none,
            meta := md2, engine := d1 }
      else
        { ciphertext := [], err := some .aesKeySize, meta := md1, engine := d1 }

/-- decryptData: AES-GCM open with a candidate data key and the envelope's
nonce.  `gcm.Open(nil, ...)` yields a nil slice exactly when it fails or the
plaintext is empty, so `[]` models both; the error accompanies the failure. -/
def decryptData (p : CryptoPrims) (dataKeySecret : List Nat)
    (msgMetadata : MessageMetadata) (payload : List Nat) : List Nat × Option GoErr :=
  if aesValidKeyLen dataKeySecret.length then
    match p.openGCM dataKeySecret msgMetadata.encryptionParam payload with
    | none => ([], some .openErr)
    | some pt => (pt, none)
  else ([], some .aesKeySize)

/-- The entry loop of getKeyAndDecryptData: for each envelope entry with a
cached unwrapped key, attempt the authenticated open; the first non-nil
plaintext is returned, everything else falls through to `[]`. -/
def getKeyLoop (p : CryptoPrims) (d : Engine) (msgMetadata : MessageMetadata)
    (payload : List Nat) : List EncryptionKeys → List Nat
  | [] => []
  | k :: rest =>
    match loadAssoc d.loadingCache (p.md5Hex k.value) with
    | some storedSecretKey =>
      let r := decryptData p storedSecretKey msgMetadata payload
      if r.1 ≠ [] then r.1 else getKeyLoop p d msgMetadata payload rest
    | none => getKeyLoop p d msgMetadata payload rest

/-- getKeyAndDecryptData: the cache-driven decrypt attempt.  Its Go error
result is nil on every path (`return decryptedData, nil` and
`return nil, nil`). -/
def getKeyAndDecryptData (p : CryptoPrims) (d : Engine)
    (msgMetadata : MessageMetadata) (payload : List Nat) : List Nat × Option GoErr :=
  (getKeyLoop p d msgMetadata payload msgMetadata.encryptionKeys, none)

/-- The key-metadata map handed to GetPrivateKey, built from the envelope
entry's metadata list with Go-map overwrite semantics. -/
def buildKeyMeta (encKeymeta : List (String × String)) : List (String × String) :=
  encKeymeta.foldl (fun m kv => storeAssoc m kv.1 kv.2) []

/-- decryptDataKey: resolve the private key, unwrap the entry's wrapped
bytes, and on success adopt the result as the current data key and cache it
under the fingerprint of the wrapped bytes.  Returns whether it succeeded. -/
def decryptDataKey (p : CryptoPrims) (d : Engine) (keyName : String)
    (encDatakey : List Nat) (encKeymeta : List (String × String))
    (keyReader : KeyReader) : Bool × Engine :=
  match keyReader.getPrivateKey keyName (buildKeyMeta encKeymeta) with
  | .error _ => (false, d)
  | .ok keyInfo =>
    match p.parsePriKey keyInfo.key with
    | none => (false, d)
    | some rsaPriKey =>
      match p.rsaUnwrap rsaPriKey encDatakey with
      | none => (false, d)
      | some decryptedDataKey =>
        let cache := storeAssoc d.loadingCache (p.md5Hex encDatakey) decryptedDataKey
        (true, { d with dataKey := some decryptedDataKey, loadingCache := cache })

/-- The slow-path loop of Decrypt: decryptDataKey on every envelope entry.
Returns the engine, the number of successes (the length of the local
`encryptionKeys` slice in the Go code) and, as instrumentation, the number
of GetPrivateKey calls performed (exactly one per entry). -/
def decryptLoop (p : CryptoPrims) (kr : KeyReader) :
    Engine → List EncryptionKeys → Engine × Nat × Nat
  | d, [] => (d, 0, 0)
  | d, k :: rest =>
    let step := decryptDataKey p d k.key k.value k.metadata kr
    let next := decryptLoop p kr step.2 rest
    (next.1, (if step.1 then 1 else 0) + next.2.1, 1 + next.2.2)

/-- Result of Decrypt: plaintext (`[]` models the nil return), error, the
engine after the call, and the instrumented count of GetPrivateKey calls. -/
structure DecryptResult where
  plaintext : List Nat
  err : Option GoErr
  engine : Engine
  privCalls : Nat
deriving Repr, DecidableEq

/-- Decrypt.  Fast path: if a current data key exists, try the cache-driven
open and return any non-nil plaintext.  Slow path: unwrap each envelope
entry; with zero successes fail with the data-key-decryption error, else
return whatever a second cache-driven attempt yields — including its
always-nil error, so an all-opens-fail outcome is `([], none)`. -/
def Decrypt (p : CryptoPrims) (d : Engine) (msgMetadata : MessageMetadata)
    (payload : List Nat) (keyReader : KeyReader) : DecryptResult :=
  let fast :=
    if d.dataKey.isSome then (getKeyAndDecryptData p d msgMetadata payload).1 else []
  if fast ≠ [] then
    { plaintext := fast, err := none, engine := d, privCalls := 0 }
  else
    match decryptLoop p keyReader d msgMetadata.encryptionKeys with
    | (d1, n, calls) =>
      if n = 0 then
        { plaintext := [], err := some .dataKeyDecryption, engine := d1, privCalls := calls }
      else
        let r := getKeyAndDecryptData p d1 msgMetadata payload
        { plaintext := r.1, err := r.2, engine := d1, privCalls := calls }

/-! Concrete executable instantiations used by witness and counterexample
theorems.  Keys are byte lists; a toy wrap prefixes the recipient key bytes,
the toy AEAD appends key and nonce as an authentication tag, and the toy
fingerprint is the identity. -/

/-- Toy primitives for concrete evaluation. -/
def toyPrims : CryptoPrims where
  parsePubKey := fun bs => some bs
  parsePriKey := fun bs => some bs
  rsaWrap := fun pk m => some (pk ++ m)
  rsaUnwrap := fun sk c =>
    if sk ≠ [] ∧ c.take sk.length = sk then some (c.drop sk.length) else none
  sealGCM := fun k n pl => pl ++ k ++ n
  openGCM := fun k n c =>
    if 0 < (k ++ n).length ∧ (k ++ n).length ≤ c.length ∧
        c.drop (c.length - (k ++ n).length) = k ++ n then
      some (c.take (c.length - (k ++ n).length))
    else none
  md5Hex := fun bs => bs
  newKeyBytes := some (List.replicate 32 5)
  nonceBytes := some (List.replicate 12 9)

/-- Toy reader that always resolves to key bytes [7]. -/
def toyReader : KeyReader where
  getPublicKey := fun _ _ => .ok { key := [7], metadata := [] }
  getPrivateKey := fun _ _ => .ok { key := [7], metadata := [] }

/-- Toy reader that fails exactly on the name "bad". -/
def selReader : KeyReader where
  getPublicKey := fun name _ =>
    if name = "bad" then .error "no such key" else .ok { key := [7], metadata := [] }
  getPrivateKey := fun name _ =>
    if name = "bad" then .error "no such key" else .ok { key := [7], metadata := [] }

/-- The 32-byte data key the toy RNG generates. -/
def k32 : List Nat := List.replicate 32 5

/-- The 12-byte nonce the toy RNG draws. -/
def nonce12 : List Nat := List.replicate 12 9

/-- The toy wrap of `k32` under key bytes [7]. -/
def wrap32 : List Nat := 7 :: k32

/-- A fresh engine without a data key (keyGenNeeded = false). -/
def freshNoKey : Engine :=
  { dataKey := none, loadingCache := [], encryptedDataKeyMap := [], logCtx := "p" }

/-- A fresh consumer-side engine. -/
def freshConsumer : Engine :=
  { dataKey := none, loadingCache := [], encryptedDataKeyMap := [], logCtx := "c" }

/-- Metadata with no keys and no nonce. -/
def emptyMd : MessageMetadata := { encryptionKeys := [], encryptionParam := [] }

/-- An envelope carrying one resolvable wrapped entry. -/
def oneKeyMd : MessageMetadata :=
  { encryptionKeys := [{ key := "r", value := wrap32, metadata := [] }],
    encryptionParam := nonce12 }

/-! Association-list lemmas. -/

/-- Looking up the key just stored yields the stored value. -/
theorem loadAssoc_storeAssoc_self {κ α : Type} [DecidableEq κ]
    (m : List (κ × α)) (k : κ) (v : α) :
    loadAssoc (storeAssoc m k v) k = some v := by
  induction m with
  | nil => simp [storeAssoc, loadAssoc]
  | cons kv rest ih =>
    by_cases h : kv.1 = k
    · simp [storeAssoc, loadAssoc, h]
    · simp [storeAssoc, loadAssoc, h, ih]

/-- Storing under one key does not change lookups of another. -/
theorem loadAssoc_storeAssoc_ne {κ α : Type} [DecidableEq κ]
    (m : List (κ × α)) (k k' : κ) (v : α) (h : k' ≠ k) :
    loadAssoc (storeAssoc m k v) k' = loadAssoc m k' := by
  have hne : ¬(k = k') := fun hh => h hh.symm
  induction m with
  | nil => simp [storeAssoc, loadAssoc, hne]
  | cons kv rest ih =>
    by_cases hk : kv.1 = k
    · simp [storeAssoc, loadAssoc, hk, hne]
    · simp only [storeAssoc, hk, if_false, loadAssoc]
      by_cases hk' : kv.1 = k' <;> simp [hk', ih]

/-! C10: no decrypt-side pass-through for an empty encryption-key list. -/

/-- C10: for every envelope whose encryption-key list is empty, Decrypt
fails with the data-key-decryption error, regardless of the ciphertext,
the reader, and the engine state. -/
theorem C10_decrypt_empty_keylist (p : CryptoPrims) (d : Engine)
    (md : MessageMetadata) (payload : List Nat) (kr : KeyReader)
    (h : md.encryptionKeys = []) :
    Decrypt p d md payload kr =
      { plaintext := [], err := some .dataKeyDecryption, engine := d, privCalls := 0 } := by
  simp [Decrypt, getKeyAndDecryptData, getKeyLoop, decryptLoop, h]

/-- A consumer engine already holding a data key. -/
def keyedConsumer : Engine :=
  { dataKey := some k32, loadingCache := [], encryptedDataKeyMap := [], logCtx := "c" }

/-- An envelope with an empty key list but a nonempty nonce. -/
def noKeysMd : MessageMetadata := { encryptionKeys := [], encryptionParam := [1] }

/-- Witness for C10 at a concrete engine holding a data key and a nonempty
ciphertext. -/
theorem C10_decrypt_empty_keylist_witness :
    Decrypt toyPrims keyedConsumer noKeysMd [9, 9] toyReader =
      { plaintext := [], err := some .dataKeyDecryption,
        engine := keyedConsumer, privCalls := 0 } :=
  C10_decrypt_empty_keylist toyPrims _ _ _ _ rfl

/-! C1: an envelope entry that unwraps, with a ciphertext every open
rejects, makes Decrypt return a nil plaintext together with a nil error. -/

/-- C1: at a concrete envelope whose single entry unwraps successfully (the
engine even adopts the unwrapped data key and the reader is consulted once)
but whose ciphertext fails the authenticated open, Decrypt returns nil
plaintext and nil error — neither authenticated plaintext nor the
symmetric-decryption failure the specification requires. -/
theorem C1_decrypt_nil_nil :
    (Decrypt toyPrims freshConsumer oneKeyMd [9] toyReader).plaintext = [] ∧
    (Decrypt toyPrims freshConsumer oneKeyMd [9] toyReader).err = none ∧
    (Decrypt toyPrims freshConsumer oneKeyMd [9] toyReader).engine.dataKey = some k32 ∧
    (Decrypt toyPrims freshConsumer oneKeyMd [9] toyReader).privCalls = 1 := by
  decide

/-! C4: what an Encrypt failure leaves behind. -/

/-- The inner addPublicKeyCipher never writes the data-key field. -/
theorem addPublicKeyCipher_dataKey (p : CryptoPrims) (d : Engine)
    (keyName : String) (kr : Option KeyReader) :
    (addPublicKeyCipher p d keyName kr).1.dataKey = d.dataKey := by
  unfold addPublicKeyCipher
  repeat' split
  all_goals rfl

/-- The merge loop of Encrypt never writes the data-key field. -/
theorem encryptLoop_dataKey (p : CryptoPrims) (kr : Option KeyReader)
    (kmap : List (String × Nat)) :
    ∀ (names : List String) (d : Engine) (keys : List EncryptionKeys),
      (encryptLoop p kr kmap d keys names).1.dataKey = d.dataKey := by
  intro names
  induction names with
  | nil => intro d keys; rfl
  | cons n rest ih =>
    intro d keys
    simp only [encryptLoop]
    generalize hd1 : (if (loadAssoc d.encryptedDataKeyMap n).isSome then d
      else (addPublicKeyCipher p d n kr).1) = d1
    have h1 : d1.dataKey = d.dataKey := by
      rw [← hd1]
      split
      · rfl
      · exact addPublicKeyCipher_dataKey p d n kr
    split
    · exact h1
    · split
      · exact (ih d1 _).trans h1
      · exact (ih d1 _).trans h1

/-- Encrypt never writes the data-key field, on any path. -/
theorem encrypt_dataKey_untouched (p : CryptoPrims) (d : Engine)
    (encKeys : List String) (kr : Option KeyReader) (md : MessageMetadata)
    (payload : List Nat) :
    (Encrypt p d encKeys kr md payload).engine.dataKey = d.dataKey := by
  have hloop := encryptLoop_dataKey p kr (buildKeysMap md.encryptionKeys)
    encKeys d md.encryptionKeys
  simp only [Encrypt]
  split
  · rfl
  · split <;> rename_i heq <;> rw [heq] at hloop
    · simpa using hloop
    · split
      · split <;> simpa using hloop
      · simpa using hloop

/-- Every failing Encrypt leaves the metadata's nonce field unchanged. -/
theorem encrypt_err_param (p : CryptoPrims) (d : Engine)
    (encKeys : List String) (kr : Option KeyReader) (md : MessageMetadata)
    (payload : List Nat) :
    ∀ e : GoErr, (Encrypt p d encKeys kr md payload).err = some e →
      (Encrypt p d encKeys kr md payload).meta.encryptionParam = md.encryptionParam := by
  simp only [Encrypt]
  split
  · intro e he; rfl
  · split
    · intro e he; rfl
    · split
      · split
        · intro e he; rfl
        · intro e he; exact Option.noConfusion he
      · intro e he; rfl

/-- C4 counterexample: an Encrypt call that fails at AES cipher
construction (no data key, so length 0) has already rewritten the
metadata's encryption-key list, so the claim that the key list is left as
it was before the call is false. -/
theorem C4_counterexample :
    (Encrypt toyPrims freshNoKey ["r"] (some toyReader) emptyMd [1]).err =
      some .aesKeySize ∧
    (Encrypt toyPrims freshNoKey ["r"] (some toyReader) emptyMd [1]).meta.encryptionKeys ≠
      emptyMd.encryptionKeys := by
  decide

/-- C4 amended: when Encrypt fails at cipher construction or at nonce
generation, the engine's data key and the metadata's nonce field are left
as they were before the call (the merged key list, however, has already
been written by then, and the lazy wraps stay in the store). -/
theorem C4_amended (p : CryptoPrims) (d : Engine) (encKeys : List String)
    (kr : Option KeyReader) (md : MessageMetadata) (payload : List Nat)
    (h : (Encrypt p d encKeys kr md payload).err = some .aesKeySize ∨
         (Encrypt p d encKeys kr md payload).err = some .generatingNonce) :
    (Encrypt p d encKeys kr md payload).engine.dataKey = d.dataKey ∧
    (Encrypt p d encKeys kr md payload).meta.encryptionParam = md.encryptionParam := by
  refine ⟨encrypt_dataKey_untouched p d encKeys kr md payload, ?_⟩
  rcases h with h | h
  · exact encrypt_err_param p d encKeys kr md payload _ h
  · exact encrypt_err_param p d encKeys kr md payload _ h


/-- Witness for C4 amended at the cipher-construction failure of a keyless
engine. -/
theorem C4_amended_witness :
    (Encrypt toyPrims freshNoKey ["r"] (some toyReader) emptyMd [1]).engine.dataKey =
      freshNoKey.dataKey ∧
    (Encrypt toyPrims freshNoKey ["r"] (some toyReader) emptyMd [1]).meta.encryptionParam =
      emptyMd.encryptionParam :=
  C4_amended toyPrims freshNoKey ["r"] (some toyReader) emptyMd [1] (Or.inl (by decide))

/-! C5: the data-key length invariant. -/

/-- generateDataKey always produces a 32-byte key on success. -/
theorem generateDataKey_length (p : CryptoPrims) (k : List Nat)
    (h : generateDataKey p = .ok k) : k.length = 32 := by
  unfold generateDataKey at h
  cases hb : p.newKeyBytes with
  | none => rw [hb] at h; exact Except.noConfusion h
  | some bs =>
    rw [hb] at h
    cases h
    simp

/-- The per-name loop of AddPublicKeyCipher never writes the data-key field. -/
theorem addPublicKeyCipherLoop_dataKey (p : CryptoPrims) (kr : Option KeyReader) :
    ∀ (names : List String) (d : Engine),
      (addPublicKeyCipherLoop p kr d names).1.dataKey = d.dataKey := by
  intro names
  induction names with
  | nil => intro d; rfl
  | cons n rest ih =>
    intro d
    simp only [addPublicKeyCipherLoop]
    rcases hA : addPublicKeyCipher p d n kr with ⟨d', e⟩
    have hd' : d'.dataKey = d.dataKey := by
      have h0 := addPublicKeyCipher_dataKey p d n kr
      rw [hA] at h0
      exact h0
    cases e with
    | none => exact (ih d').trans hd'
    | some e0 => exact hd'

/-- A freshly constructed consumer engine (no key generation). -/
def consumerOf (ctx : String) : Engine := (NewDefaultMessageCrypto toyPrims ctx false).1

/-- An envelope whose single entry wraps a 3-byte data key. -/
def shortKeyMd : MessageMetadata :=
  { encryptionKeys := [{ key := "r", value := [7, 1, 2, 3], metadata := [] }],
    encryptionParam := nonce12 }

/-- C5 counterexample: a reachable engine state — fresh engine, then one
Decrypt of an envelope whose entry unwraps to 3 bytes — holds a present
data key that is not 32 bytes, so decrypt-time adoption does not preserve
the length invariant. -/
theorem C5_counterexample :
    (Decrypt toyPrims (consumerOf "c") shortKeyMd [9] toyReader).engine.dataKey =
      some [1, 2, 3] ∧
    ([1, 2, 3] : List Nat).length ≠ 32 := by
  decide

/-- C5 amended: every data key set by key generation — initialization with
keyGenNeeded and the AddPublicKeyCipher rotation, even when a later
per-name wrap fails — is exactly 32 bytes; decrypt-time adoption instead
installs the unwrap output verbatim, so its length is constrained only by
the envelope contents. -/
theorem C5_amended (p : CryptoPrims) (ctx : String) (d : Engine)
    (names : List String) (kr : Option KeyReader) (k : List Nat)
    (hgen : generateDataKey p = .ok k) :
    k.length = 32 ∧
    (NewDefaultMessageCrypto p ctx true).1.dataKey = some k ∧
    (AddPublicKeyCipher p d names kr).1.dataKey = some k := by
  refine ⟨generateDataKey_length p k hgen, ?_, ?_⟩
  · simp [NewDefaultMessageCrypto, hgen]
  · simp only [AddPublicKeyCipher, hgen]
    exact addPublicKeyCipherLoop_dataKey p kr names _

/-- Witness for C5 amended at the toy primitives. -/
theorem C5_amended_witness :
    k32.length = 32 ∧
    (NewDefaultMessageCrypto toyPrims "c" true).1.dataKey = some k32 ∧
    (AddPublicKeyCipher toyPrims freshNoKey ["r"] (some toyReader)).1.dataKey = some k32 :=
  C5_amended toyPrims "c" freshNoKey ["r"] (some toyReader) k32 (by rfl)

/-! C6: AddPublicKeyCipher rotates the data key, aborts at the first
failure, keeps earlier successes, and does not process later names. -/

/-- C6: with names [a, b, c] where a's wrap chain succeeds and b's
public-key lookup fails, AddPublicKeyCipher rotates the data key to the
freshly generated one, surfaces b's error, keeps a's newly stored wrapped
entry, and leaves c's store entry exactly as before the call. -/
theorem C6_add_recipient_abort (p : CryptoPrims) (d : Engine) (kr : KeyReader)
    (a b c : String) (dk wA : List Nat) (kiA : EncryptionKeyInfo)
    (pkA : List Nat) (eb : String)
    (hgen : generateDataKey p = .ok dk)
    (ha0 : a ≠ "")
    (ha1 : kr.getPublicKey a [] = .ok kiA)
    (ha2 : p.parsePubKey kiA.key = some pkA)
    (ha3 : p.rsaWrap pkA dk = some wA)
    (hb0 : b ≠ "")
    (hb1 : kr.getPublicKey b [] = .error eb)
    (hca : c ≠ a) :
    (AddPublicKeyCipher p d [a, b, c] (some kr)).2 = some (.readerErr eb) ∧
    (AddPublicKeyCipher p d [a, b, c] (some kr)).1.dataKey = some dk ∧
    loadAssoc (AddPublicKeyCipher p d [a, b, c] (some kr)).1.encryptedDataKeyMap a =
      some { key := wA, metadata := kiA.metadata } ∧
    loadAssoc (AddPublicKeyCipher p d [a, b, c] (some kr)).1.encryptedDataKeyMap c =
      loadAssoc d.encryptedDataKeyMap c := by
  have hres :
      AddPublicKeyCipher p d [a, b, c] (some kr) =
        (⟨some dk, d.loadingCache,
          storeAssoc d.encryptedDataKeyMap a { key := wA, metadata := kiA.metadata },
          d.logCtx⟩, some (.readerErr eb)) := by
    simp [AddPublicKeyCipher, hgen, addPublicKeyCipherLoop, addPublicKeyCipher,
      ha0, ha1, ha2, ha3, hb0, hb1]
  rw [hres]
  refine ⟨rfl, rfl, ?_, ?_⟩
  · exact loadAssoc_storeAssoc_self d.encryptedDataKeyMap a _
  · exact loadAssoc_storeAssoc_ne d.encryptedDataKeyMap a c _ hca

/-- Witness for C6 at the toy primitives, with a selective reader failing
on the name "bad". -/
theorem C6_add_recipient_abort_witness :
    (AddPublicKeyCipher toyPrims freshNoKey ["good", "bad", "c2"] (some selReader)).2 =
      some (.readerErr "no such key") ∧
    (AddPublicKeyCipher toyPrims freshNoKey ["good", "bad", "c2"]
      (some selReader)).1.dataKey = some k32 ∧
    loadAssoc (AddPublicKeyCipher toyPrims freshNoKey ["good", "bad", "c2"]
      (some selReader)).1.encryptedDataKeyMap "good" =
      some { key := wrap32, metadata := [] } ∧
    loadAssoc (AddPublicKeyCipher toyPrims freshNoKey ["good", "bad", "c2"]
      (some selReader)).1.encryptedDataKeyMap "c2" =
      loadAssoc freshNoKey.encryptedDataKeyMap "c2" :=
  C6_add_recipient_abort toyPrims freshNoKey selReader "good" "bad" "c2" k32 wrap32
    { key := [7], metadata := [] } [7] "no such key"
    (by rfl) (by decide) (by rfl) (by rfl) (by rfl) (by decide) (by rfl) (by decide)

/-! C2: encrypt-then-decrypt round trip. -/

/-- Copying a list guarded by its own nonemptiness is the identity. -/
theorem list_if_length_pos {α : Type} (l : List α) :
    (if l.length > 0 then l else []) = l := by
  cases l <;> simp

/-- C2: for every payload, abstract primitives satisfying the RSA and GCM
round-trip identities, and a recipient R resolvable on both sides, sealing
with Encrypt on a fresh key-generating engine and opening with Decrypt on a
fresh consumer engine returns the original payload with no error. -/
theorem C2_round_trip (p : CryptoPrims) (kr1 kr2 : KeyReader) (R ctx1 ctx2 : String)
    (payload kb nb dk nonce pk sk w : List Nat) (kiR kiPri : EncryptionKeyInfo)
    (hkb : p.newKeyBytes = some kb)
    (hdk : dk = (kb ++ List.replicate 32 0).take 32)
    (hnb : p.nonceBytes = some nb)
    (hnonce : nonce = (nb ++ List.replicate 12 0).take 12)
    (hR : R ≠ "")
    (hpub : kr1.getPublicKey R [] = .ok kiR)
    (hparse : p.parsePubKey kiR.key = some pk)
    (hwrap : p.rsaWrap pk dk = some w)
    (hpri : kr2.getPrivateKey R (buildKeyMeta kiR.metadata) = .ok kiPri)
    (hparse2 : p.parsePriKey kiPri.key = some sk)
    (hunwrap : p.rsaUnwrap sk w = some dk)
    (hopen : p.openGCM dk nonce (p.sealGCM dk nonce payload) = some payload) :
    (Encrypt p (NewDefaultMessageCrypto p ctx1 true).1 [R] (some kr1) emptyMd payload).err
      = none ∧
    (Decrypt p (NewDefaultMessageCrypto p ctx2 false).1
      (Encrypt p (NewDefaultMessageCrypto p ctx1 true).1 [R] (some kr1) emptyMd payload).meta
      (Encrypt p (NewDefaultMessageCrypto p ctx1 true).1 [R] (some kr1) emptyMd
        payload).ciphertext
      kr2).plaintext = payload ∧
    (Decrypt p (NewDefaultMessageCrypto p ctx2 false).1
      (Encrypt p (NewDefaultMessageCrypto p ctx1 true).1 [R] (some kr1) emptyMd payload).meta
      (Encrypt p (NewDefaultMessageCrypto p ctx1 true).1 [R] (some kr1) emptyMd
        payload).ciphertext
      kr2).err = none := by
  have hgen : generateDataKey p = .ok dk := by
    simp [generateDataKey, hkb, hdk]
  have hdklen : dk.length = 32 := generateDataKey_length p dk hgen
  have hlen : aesValidKeyLen dk.length = true := by rw [hdklen]; rfl
  have hD1 : (NewDefaultMessageCrypto p ctx1 true).1 = ⟨some dk, [], [], ctx1⟩ := by
    simp [NewDefaultMessageCrypto, hgen]
  have hD2 : (NewDefaultMessageCrypto p ctx2 false).1 = ⟨none, [], [], ctx2⟩ := by
    simp [NewDefaultMessageCrypto]
  have hAdd : addPublicKeyCipher p ⟨some dk, [], [], ctx1⟩ R (some kr1) =
      (⟨some dk, [], [(R, ⟨w, kiR.metadata⟩)], ctx1⟩, none) := by
    simp [addPublicKeyCipher, hR, hpub, hparse, hwrap, storeAssoc]
  have hEnc : Encrypt p (NewDefaultMessageCrypto p ctx1 true).1 [R] (some kr1) emptyMd
      payload =
      ⟨p.sealGCM dk nonce payload, none, ⟨[⟨R, w, kiR.metadata⟩], nonce⟩,
        ⟨some dk, [], [(R, ⟨w, kiR.metadata⟩)], ctx1⟩⟩ := by
    rw [hD1]
    simp [Encrypt, buildKeysMap, encryptLoop, loadAssoc, hAdd, hlen, hnb, hnonce,
      emptyMd, list_if_length_pos]
  have hDkk : decryptDataKey p ⟨none, [], [], ctx2⟩ R w kiR.metadata kr2 =
      (true, ⟨some dk, [(p.md5Hex w, dk)], [], ctx2⟩) := by
    simp [decryptDataKey, hpri, hparse2, hunwrap, storeAssoc]
  have hDec : Decrypt p ⟨none, [], [], ctx2⟩ ⟨[⟨R, w, kiR.metadata⟩], nonce⟩
      (p.sealGCM dk nonce payload) kr2 =
      ⟨payload, none, ⟨some dk, [(p.md5Hex w, dk)], [], ctx2⟩, 1⟩ := by
    by_cases hpl : payload = []
    · subst hpl
      simp [Decrypt, decryptLoop, hDkk, getKeyAndDecryptData, getKeyLoop, loadAssoc,
        decryptData, hlen, hopen]
    · simp [Decrypt, decryptLoop, hDkk, getKeyAndDecryptData, getKeyLoop, loadAssoc,
        decryptData, hlen, hopen, hpl]
  refine ⟨by rw [hEnc], ?_, ?_⟩
  · simp only [hEnc, hD2]
    rw [hDec]
  · simp only [hEnc, hD2]
    rw [hDec]

/-- Witness for C2 at the toy primitives and payload [1, 2, 3]. -/
theorem C2_round_trip_witness :
    (Encrypt toyPrims (NewDefaultMessageCrypto toyPrims "p" true).1 ["r"] (some toyReader)
      emptyMd [1, 2, 3]).err = none ∧
    (Decrypt toyPrims (NewDefaultMessageCrypto toyPrims "c" false).1
      (Encrypt toyPrims (NewDefaultMessageCrypto toyPrims "p" true).1 ["r"] (some toyReader)
        emptyMd [1, 2, 3]).meta
      (Encrypt toyPrims (NewDefaultMessageCrypto toyPrims "p" true).1 ["r"] (some toyReader)
        emptyMd [1, 2, 3]).ciphertext
      toyReader).plaintext = [1, 2, 3] ∧
    (Decrypt toyPrims (NewDefaultMessageCrypto toyPrims "c" false).1
      (Encrypt toyPrims (NewDefaultMessageCrypto toyPrims "p" true).1 ["r"] (some toyReader)
        emptyMd [1, 2, 3]).meta
      (Encrypt toyPrims (NewDefaultMessageCrypto toyPrims "p" true).1 ["r"] (some toyReader)
        emptyMd [1, 2, 3]).ciphertext
      toyReader).err = none :=
  C2_round_trip toyPrims toyReader toyReader "r" "p" "c" [1, 2, 3]
    (List.replicate 32 5) (List.replicate 12 9) k32 nonce12 [7] [7] wrap32
    ⟨[7], []⟩ ⟨[7], []⟩ rfl (by decide) rfl (by decide) (by decide) rfl rfl rfl rfl rfl
    (by decide) (by decide)

/-! C7: decryption is driven by the envelope, not by the engine's current
data-key field, so key rotation does not break old messages. -/

/-- C7: for an engine whose current data-key field holds anything at all
(in particular a key rotated away by a later AddPublicKeyCipher) and whose
cache has no entry for the envelope's fingerprint, Decrypt of a message
whose own wrapped entry is resolvable re-derives the data key from the
envelope and returns the original payload — the current-key field never
serves as the decryption key. -/
theorem C7_rotation_safe (p : CryptoPrims) (kr : KeyReader) (R ctx : String)
    (dke : Option (List Nat)) (cache : List (List Nat × List Nat))
    (edm : List (String × EncryptionKeyInfo))
    (payload ct dk nonce w sk : List Nat) (metaE : List (String × String))
    (kiPri : EncryptionKeyInfo)
    (hmiss : loadAssoc cache (p.md5Hex w) = none)
    (hpri : kr.getPrivateKey R (buildKeyMeta metaE) = .ok kiPri)
    (hparse : p.parsePriKey kiPri.key = some sk)
    (hunwrap : p.rsaUnwrap sk w = some dk)
    (hlen : aesValidKeyLen dk.length = true)
    (hopen : p.openGCM dk nonce ct = some payload) :
    (Decrypt p ⟨dke, cache, edm, ctx⟩ ⟨[⟨R, w, metaE⟩], nonce⟩ ct kr).plaintext = payload ∧
    (Decrypt p ⟨dke, cache, edm, ctx⟩ ⟨[⟨R, w, metaE⟩], nonce⟩ ct kr).err = none := by
  have hDkk : decryptDataKey p ⟨dke, cache, edm, ctx⟩ R w metaE kr =
      (true, ⟨some dk, storeAssoc cache (p.md5Hex w) dk, edm, ctx⟩) := by
    simp [decryptDataKey, hpri, hparse, hunwrap]
  have hself := loadAssoc_storeAssoc_self cache (p.md5Hex w) dk
  by_cases hpl : payload = []
  · subst hpl
    constructor <;>
      simp [Decrypt, getKeyAndDecryptData, getKeyLoop, hmiss, decryptLoop, hDkk,
        decryptData, hlen, hopen, hself]
  · constructor <;>
      simp [Decrypt, getKeyAndDecryptData, getKeyLoop, hmiss, decryptLoop, hDkk,
        decryptData, hlen, hopen, hself, hpl]

/-- Witness for C7: the engine's current key is junk ([1, 2]) yet the
message seals open to the original payload from the envelope's entry. -/
theorem C7_rotation_safe_witness :
    (Decrypt toyPrims ⟨some [1, 2], [], [], "c"⟩ ⟨[⟨"r", wrap32, []⟩], nonce12⟩
      ([4, 5] ++ k32 ++ nonce12) toyReader).plaintext = [4, 5] ∧
    (Decrypt toyPrims ⟨some [1, 2], [], [], "c"⟩ ⟨[⟨"r", wrap32, []⟩], nonce12⟩
      ([4, 5] ++ k32 ++ nonce12) toyReader).err = none :=
  C7_rotation_safe toyPrims toyReader "r" "c" (some [1, 2]) [] [] [4, 5]
    ([4, 5] ++ k32 ++ nonce12) k32 nonce12 wrap32 [7] [] ⟨[7], []⟩
    rfl rfl rfl (by decide) (by decide) (by decide)

/-! C8: two decrypts sharing a wrapped form cost one private-key unwrap. -/

/-- C8: starting from a fresh consumer engine, decrypting two messages
whose envelopes carry the same wrapped data-key bytes performs exactly one
GetPrivateKey unwrap in the first call (which caches fingerprint(w) → dk)
and zero in the second, which is served entirely by the cache fast path
and leaves the engine unchanged. -/
theorem C8_cache_effect (p : CryptoPrims) (kr : KeyReader)
    (R1 R2 ctx : String) (edm : List (String × EncryptionKeyInfo))
    (ct1 ct2 pt1 pt2 dk n1 n2 w sk : List Nat)
    (m1 m2 : List (String × String)) (kiPri : EncryptionKeyInfo)
    (hpri : kr.getPrivateKey R1 (buildKeyMeta m1) = .ok kiPri)
    (hparse : p.parsePriKey kiPri.key = some sk)
    (hunwrap : p.rsaUnwrap sk w = some dk)
    (hlen : aesValidKeyLen dk.length = true)
    (hopen1 : p.openGCM dk n1 ct1 = some pt1) (hpt1 : pt1 ≠ [])
    (hopen2 : p.openGCM dk n2 ct2 = some pt2) (hpt2 : pt2 ≠ []) :
    (Decrypt p ⟨none, [], edm, ctx⟩ ⟨[⟨R1, w, m1⟩], n1⟩ ct1 kr).privCalls = 1 ∧
    (Decrypt p (Decrypt p ⟨none, [], edm, ctx⟩ ⟨[⟨R1, w, m1⟩], n1⟩ ct1 kr).engine
      ⟨[⟨R2, w, m2⟩], n2⟩ ct2 kr).privCalls = 0 ∧
    (Decrypt p ⟨none, [], edm, ctx⟩ ⟨[⟨R1, w, m1⟩], n1⟩ ct1 kr).plaintext = pt1 ∧
    (Decrypt p (Decrypt p ⟨none, [], edm, ctx⟩ ⟨[⟨R1, w, m1⟩], n1⟩ ct1 kr).engine
      ⟨[⟨R2, w, m2⟩], n2⟩ ct2 kr).plaintext = pt2 ∧
    (Decrypt p (Decrypt p ⟨none, [], edm, ctx⟩ ⟨[⟨R1, w, m1⟩], n1⟩ ct1 kr).engine
      ⟨[⟨R2, w, m2⟩], n2⟩ ct2 kr).engine =
      (Decrypt p ⟨none, [], edm, ctx⟩ ⟨[⟨R1, w, m1⟩], n1⟩ ct1 kr).engine := by
  have hDkk : decryptDataKey p ⟨none, [], edm, ctx⟩ R1 w m1 kr =
      (true, ⟨some dk, [(p.md5Hex w, dk)], edm, ctx⟩) := by
    simp [decryptDataKey, hpri, hparse, hunwrap, storeAssoc]
  have hr1 : Decrypt p ⟨none, [], edm, ctx⟩ ⟨[⟨R1, w, m1⟩], n1⟩ ct1 kr =
      ⟨pt1, none, ⟨some dk, [(p.md5Hex w, dk)], edm, ctx⟩, 1⟩ := by
    simp [Decrypt, getKeyAndDecryptData, getKeyLoop, loadAssoc, decryptLoop, hDkk,
      decryptData, hlen, hopen1, hpt1]
  have hr2 : Decrypt p ⟨some dk, [(p.md5Hex w, dk)], edm, ctx⟩ ⟨[⟨R2, w, m2⟩], n2⟩ ct2 kr =
      ⟨pt2, none, ⟨some dk, [(p.md5Hex w, dk)], edm, ctx⟩, 0⟩ := by
    simp [Decrypt, getKeyAndDecryptData, getKeyLoop, loadAssoc, decryptData, hlen,
      hopen2, hpt2]
  simp [hr1, hr2]

/-- Witness for C8: two toy messages sharing the wrapped key bytes. -/
theorem C8_cache_effect_witness :
    (Decrypt toyPrims ⟨none, [], [], "c"⟩ ⟨[⟨"a", wrap32, []⟩], nonce12⟩
      ([4, 5] ++ k32 ++ nonce12) toyReader).privCalls = 1 ∧
    (Decrypt toyPrims (Decrypt toyPrims ⟨none, [], [], "c"⟩ ⟨[⟨"a", wrap32, []⟩], nonce12⟩
      ([4, 5] ++ k32 ++ nonce12) toyReader).engine
      ⟨[⟨"b", wrap32, []⟩], List.replicate 12 3⟩
      ([6] ++ k32 ++ List.replicate 12 3) toyReader).privCalls = 0 ∧
    (Decrypt toyPrims ⟨none, [], [], "c"⟩ ⟨[⟨"a", wrap32, []⟩], nonce12⟩
      ([4, 5] ++ k32 ++ nonce12) toyReader).plaintext = [4, 5] ∧
    (Decrypt toyPrims (Decrypt toyPrims ⟨none, [], [], "c"⟩ ⟨[⟨"a", wrap32, []⟩], nonce12⟩
      ([4, 5] ++ k32 ++ nonce12) toyReader).engine
      ⟨[⟨"b", wrap32, []⟩], List.replicate 12 3⟩
      ([6] ++ k32 ++ List.replicate 12 3) toyReader).plaintext = [6] ∧
    (Decrypt toyPrims (Decrypt toyPrims ⟨none, [], [], "c"⟩ ⟨[⟨"a", wrap32, []⟩], nonce12⟩
      ([4, 5] ++ k32 ++ nonce12) toyReader).engine
      ⟨[⟨"b", wrap32, []⟩], List.replicate 12 3⟩
      ([6] ++ k32 ++ List.replicate 12 3) toyReader).engine =
      (Decrypt toyPrims ⟨none, [], [], "c"⟩ ⟨[⟨"a", wrap32, []⟩], nonce12⟩
        ([4, 5] ++ k32 ++ nonce12) toyReader).engine :=
  C8_cache_effect toyPrims toyReader "a" "b" "c" []
    ([4, 5] ++ k32 ++ nonce12) ([6] ++ k32 ++ List.replicate 12 3) [4, 5] [6]
    k32 nonce12 (List.replicate 12 3) wrap32 [7] [] [] ⟨[7], []⟩
    rfl rfl (by decide) (by decide) (by decide) (by decide) (by decide) (by decide)

/-! C9: lazy wrapping happens (and persists) before the AES failure of an
engine that has no data key. -/

/-- If the engine has no data key and every requested name's wrap chain
succeeds on the empty (nil) key, the merge loop completes without error,
keeps the data key absent, lazily stores the wrap of the nil key for every
requested name, and preserves entries of that shape it already had. -/
theorem encryptLoop_lazy_nilkey (p : CryptoPrims) (kr : KeyReader)
    (kmap : List (String × Nat)) (allN : List String)
    (ki : String → EncryptionKeyInfo) (pk w : String → List Nat)
    (hchain : ∀ n ∈ allN, n ≠ "" ∧ kr.getPublicKey n [] = .ok (ki n) ∧
        p.parsePubKey (ki n).key = some (pk n) ∧ p.rsaWrap (pk n) [] = some (w n)) :
    ∀ (names : List String), (∀ n ∈ names, n ∈ allN) →
      ∀ (d : Engine) (keys : List EncryptionKeys), d.dataKey = none →
        (∀ n ∈ allN, loadAssoc d.encryptedDataKeyMap n = none ∨
            loadAssoc d.encryptedDataKeyMap n = some ⟨w n, (ki n).metadata⟩) →
        (encryptLoop p (some kr) kmap d keys names).2.2 = none ∧
        (encryptLoop p (some kr) kmap d keys names).1.dataKey = none ∧
        (∀ n ∈ names,
          loadAssoc (encryptLoop p (some kr) kmap d keys names).1.encryptedDataKeyMap n =
            some ⟨w n, (ki n).metadata⟩) ∧
        (∀ n ∈ allN,
          loadAssoc d.encryptedDataKeyMap n = some ⟨w n, (ki n).metadata⟩ →
          loadAssoc (encryptLoop p (some kr) kmap d keys names).1.encryptedDataKeyMap n =
            some ⟨w n, (ki n).metadata⟩) := by
  intro names
  induction names with
  | nil =>
    intro _ d keys hdk hinv
    exact ⟨rfl, hdk, by simp, fun n _ h => h⟩
  | cons n0 rest ih =>
    intro hsub d keys hdk hinv
    have hn0 : n0 ∈ allN := hsub n0 (List.mem_cons_self n0 rest)
    obtain ⟨hne, hpub, hparse, hwrap⟩ := hchain n0 hn0
    have hsub' : ∀ n ∈ rest, n ∈ allN := fun n hn => hsub n (List.mem_cons_of_mem n0 hn)
    rcases hinv n0 hn0 with hmiss | hhit
    · have hA1 : (addPublicKeyCipher p d n0 (some kr)).1.encryptedDataKeyMap =
          storeAssoc d.encryptedDataKeyMap n0 ⟨w n0, (ki n0).metadata⟩ := by
        simp [addPublicKeyCipher, hne, hpub, hparse, hdk, hwrap]
      have hA2 : (addPublicKeyCipher p d n0 (some kr)).1.dataKey = none :=
        (addPublicKeyCipher_dataKey p d n0 (some kr)).trans hdk
      have hload : loadAssoc (addPublicKeyCipher p d n0 (some kr)).1.encryptedDataKeyMap n0 =
          some ⟨w n0, (ki n0).metadata⟩ := by
        rw [hA1]; exact loadAssoc_storeAssoc_self _ _ _
      have hinv1 : ∀ n ∈ allN,
          loadAssoc (addPublicKeyCipher p d n0 (some kr)).1.encryptedDataKeyMap n = none ∨
          loadAssoc (addPublicKeyCipher p d n0 (some kr)).1.encryptedDataKeyMap n =
            some ⟨w n, (ki n).metadata⟩ := by
        intro n hn
        by_cases hnn : n = n0
        · subst hnn; right; exact hload
        · rw [hA1, loadAssoc_storeAssoc_ne _ _ _ _ hnn]; exact hinv n hn
      have hpersist1 : ∀ n ∈ allN,
          loadAssoc d.encryptedDataKeyMap n = some ⟨w n, (ki n).metadata⟩ →
          loadAssoc (addPublicKeyCipher p d n0 (some kr)).1.encryptedDataKeyMap n =
            some ⟨w n, (ki n).metadata⟩ := by
        intro n hn hsome
        by_cases hnn : n = n0
        · subst hnn; exact hload
        · rw [hA1, loadAssoc_storeAssoc_ne _ _ _ _ hnn]; exact hsome
      simp only [encryptLoop, hmiss, Option.isSome_none, Bool.false_eq_true, if_false, hload]
      refine ⟨(ih hsub' _ _ hA2 hinv1).1, (ih hsub' _ _ hA2 hinv1).2.1, ?_, ?_⟩
      · intro n hn
        rcases List.mem_cons.mp hn with hnn | hn'
        · subst hnn; exact (ih hsub' _ _ hA2 hinv1).2.2.2 n hn0 hload
        · exact (ih hsub' _ _ hA2 hinv1).2.2.1 n hn'
      · intro n hn hsome
        exact (ih hsub' _ _ hA2 hinv1).2.2.2 n hn (hpersist1 n hn hsome)
    · simp only [encryptLoop, hhit, Option.isSome_some, if_true]
      refine ⟨(ih hsub' _ _ hdk hinv).1, (ih hsub' _ _ hdk hinv).2.1, ?_, ?_⟩
      · intro n hn
        rcases List.mem_cons.mp hn with hnn | hn'
        · subst hnn; exact (ih hsub' _ _ hdk hinv).2.2.2 n hn0 hhit
        · exact (ih hsub' _ _ hdk hinv).2.2.1 n hn'
      · intro n hn hsome
        exact (ih hsub' _ _ hdk hinv).2.2.2 n hn hsome

/-- C9: an Encrypt on an engine without a data key, over any nonempty list
of requested names each absent from the store and wrappable, fails at AES
cipher construction — yet the wrapped-key store has gained, for every
requested name, an entry wrapping the absent (nil) data key. -/
theorem C9_error_still_mutates_store (p : CryptoPrims) (kr : KeyReader) (d : Engine)
    (md : MessageMetadata) (payload : List Nat) (names : List String)
    (ki : String → EncryptionKeyInfo) (pk w : String → List Nat)
    (hdk : d.dataKey = none)
    (hne : names ≠ [])
    (hchain : ∀ n ∈ names, n ≠ "" ∧ kr.getPublicKey n [] = .ok (ki n) ∧
        p.parsePubKey (ki n).key = some (pk n) ∧ p.rsaWrap (pk n) [] = some (w n))
    (hfresh : ∀ n ∈ names, loadAssoc d.encryptedDataKeyMap n = none) :
    (Encrypt p d names (some kr) md payload).err = some .aesKeySize ∧
    ∀ n ∈ names,
      loadAssoc (Encrypt p d names (some kr) md payload).engine.encryptedDataKeyMap n =
        some ⟨w n, (ki n).metadata⟩ := by
  obtain ⟨h1, h2, h3, _⟩ := encryptLoop_lazy_nilkey p kr (buildKeysMap md.encryptionKeys)
    names ki pk w hchain names (fun n hn => hn) d md.encryptionKeys hdk
    (fun n hn => Or.inl (hfresh n hn))
  have hempty : names.isEmpty = false := by
    cases names with
    | nil => exact absurd rfl hne
    | cons a l => rfl
  rcases hE : encryptLoop p (some kr) (buildKeysMap md.encryptionKeys) d
      md.encryptionKeys names with ⟨d1, keys, e⟩
  rw [hE] at h1 h2 h3
  simp only at h1 h2 h3
  subst h1
  constructor
  · simp [Encrypt, hempty, hE, h2, aesValidKeyLen]
  · intro n hn
    have h3' := h3 n hn
    simp [Encrypt, hempty, hE, h2, aesValidKeyLen]
    exact h3'

/-- Witness for C9 with two fresh names on the toy primitives. -/
theorem C9_error_still_mutates_store_witness :
    (Encrypt toyPrims freshNoKey ["x", "y"] (some toyReader) emptyMd [1]).err =
      some .aesKeySize ∧
    ∀ n ∈ ["x", "y"],
      loadAssoc (Encrypt toyPrims freshNoKey ["x", "y"]
          (some toyReader) emptyMd [1]).engine.encryptedDataKeyMap n =
        some ⟨[7], []⟩ :=
  C9_error_still_mutates_store toyPrims toyReader freshNoKey emptyMd [1] ["x", "y"]
    (fun _ => ⟨[7], []⟩) (fun _ => [7]) (fun _ => [7]) rfl (by decide)
    (by
      intro n hn
      simp at hn
      rcases hn with hn | hn <;> subst hn <;> exact ⟨by decide, rfl, rfl, rfl⟩)
    (by intro n hn; rfl)

/-! C3: a single unresolvable name fails the whole Encrypt, even when the
aggregate has usable wrapped keys. -/

/-- Every run of the inner addPublicKeyCipher either leaves the engine
unchanged or reports no error. -/
theorem addPublicKeyCipher_cases (p : CryptoPrims) (d : Engine) (n : String)
    (kr : Option KeyReader) :
    (addPublicKeyCipher p d n kr).1 = d ∨ (addPublicKeyCipher p d n kr).2 = none := by
  unfold addPublicKeyCipher
  repeat' split
  all_goals first
  | exact Or.inl rfl
  | exact Or.inr rfl

/-- The engine holding a usable wrapped entry for "good", built through
AddPublicKeyCipher. -/
def prodGood : Engine :=
  (AddPublicKeyCipher toyPrims freshNoKey ["good"] (some selReader)).1

/-- C3 counterexample: with a usable wrapped entry for "good" in the store
(and a valid data key), Encrypt over ["good", "bad"] still fails with the
key-not-found error for "bad" — the aggregate had a usable key, so the
claim that failures escalate only when zero keys are usable is false. -/
theorem C3_counterexample :
    loadAssoc prodGood.encryptedDataKeyMap "good" = some ⟨wrap32, []⟩ ∧
    (Encrypt toyPrims prodGood ["good", "bad"] (some selReader) emptyMd [1, 2, 3]).err =
      some (.encryptedDataKeyNotFound "p" "bad") := by
  decide

/-- C3 amended: a failed lazy wrap inside Encrypt is only logged, but if
that name is then still absent from the store Encrypt fails with the
key-not-found error for that name, even when another requested name holds a
usable wrapped entry; Encrypt seals only when every requested name ends up
with an entry. -/
theorem C3_amended (p : CryptoPrims) (kr : KeyReader) (d : Engine)
    (md : MessageMetadata) (payload : List Nat) (a b : String)
    (va : EncryptionKeyInfo) (e : GoErr)
    (ha : loadAssoc d.encryptedDataKeyMap a = some va)
    (hb0 : loadAssoc d.encryptedDataKeyMap b = none)
    (hb1 : (addPublicKeyCipher p d b (some kr)).2 = some e) :
    (Encrypt p d [a, b] (some kr) md payload).err =
      some (.encryptedDataKeyNotFound d.logCtx b) ∧
    (Encrypt p d [a, b] (some kr) md payload).ciphertext = [] := by
  have hbeng : (addPublicKeyCipher p d b (some kr)).1 = d := by
    rcases addPublicKeyCipher_cases p d b (some kr) with h | h
    · exact h
    · rw [hb1] at h; exact Option.noConfusion h
  constructor <;> simp [Encrypt, encryptLoop, ha, hb0, hbeng]

/-- Witness for C3 amended: "good" usable, "bad" unresolvable. -/
theorem C3_amended_witness :
    (Encrypt toyPrims prodGood ["good", "bad"] (some selReader) emptyMd [1, 2, 3]).err =
      some (.encryptedDataKeyNotFound prodGood.logCtx "bad") ∧
    (Encrypt toyPrims prodGood ["good", "bad"] (some selReader) emptyMd
      [1, 2, 3]).ciphertext = [] :=
  C3_amended toyPrims selReader prodGood emptyMd [1, 2, 3] "good" "bad"
    ⟨wrap32, []⟩ (.readerErr "no such key") (by decide) (by decide) (by decide)

end PulsarCrypto
